import Mathlib

/-
Verified model of `src/ctypes/ldouble_stubs.c` (long double boxing for ctypes).

A `long double` is modelled by its bit pattern, identified with the value class
it denotes.  On every platform the stubs target, distinct bit patterns denote
distinct values except for the two signed zeros and the family of NaN payloads;
the model therefore keeps an explicit sign on zero, an explicit payload on NaN,
and represents each nonzero finite value by the (unique) rational it denotes.
Bit-identity of values is definitional equality of `LD`.

Platform-dependent quantities (LDBL_MANT_DIG, sizeof(long double),
sizeof(double), endianness) and external host primitives
(caml_hash_mix_uint32, caml_hash_mix_double, the long double <-> double casts,
libm functions, strtold) are parameters of the definitions: the C file calls
them but does not define them.
-/

/-- A nonzero rational: the value of a nonzero finite floating point number. -/
abbrev NzRat := {q : ℚ // q ≠ 0}

/-- Bit patterns of a `long double`, identified with the value class they
denote.  `zero true` is -0.0L, `zero false` is +0.0L; `nan p` is a NaN with
payload coordinate `p` (the canonical NaN produced by `nanl("")` has
coordinate 0); `inf true` is -inf. -/
inductive LD where
  | zero (neg : Bool)
  | fin (q : NzRat)
  | inf (neg : Bool)
  | nan (payload : Nat)
deriving DecidableEq

/-- Extended rationals: the numeric axis used to decide IEEE comparisons of
non-NaN values (both zeros sit at 0). -/
inductive XRat where
  | ninf
  | fin (q : ℚ)
  | pinf
deriving DecidableEq

/-- Strict order on the extended rational axis. -/
def XRat.ltb : XRat → XRat → Bool
  | .ninf, .ninf => false
  | .ninf, _ => true
  | .fin _, .ninf => false
  | .fin a, .fin b => decide (a < b)
  | .fin _, .pinf => true
  | .pinf, _ => false

/-- Numeric value of a pattern: `none` for NaN (unordered). -/
def LD.toX : LD → Option XRat
  | .zero _ => some (.fin 0)
  | .fin q => some (.fin q.1)
  | .inf true => some .ninf
  | .inf false => some .pinf
  | .nan _ => none

/-- IEEE `<` on long doubles: false whenever either operand is NaN. -/
def ldLt (a b : LD) : Bool :=
  match a.toX, b.toX with
  | some x, some y => XRat.ltb x y
  | _, _ => false

/-- IEEE `==` on long doubles: false whenever either operand is NaN;
-0.0L == +0.0L. -/
def ldEqb (a b : LD) : Bool :=
  match a.toX, b.toX with
  | some x, some y => decide (x = y)
  | _, _ => false

/-- The canonical NaN `nan_`, computed by `ldouble_init` as `nanl("")`;
its (platform dependent) bit pattern is the payload-0 coordinate. -/
def nanCanonical : LD := LD.nan 0

/-- `norm` (ldouble_stubs.c:73-79): collapse -0 to +0, collapse every NaN to
the canonical NaN, pass everything else through unchanged. -/
def norm (x : LD) : LD :=
  match x with
  | .zero _ => .zero false
  | .nan _ => nanCanonical
  | x => x

/-- `ldouble_cmp` (ldouble_stubs.c:81-91).  Result is the returned int paired
with whether the call set the global `caml_compare_unordered` flag. -/
def ldouble_cmp (u1 u2 : LD) : Int × Bool :=
  if ldLt u1 u2 then (-1, false)
  else if ldLt u2 u1 then (1, false)
  else if ldEqb u1 u2 then (0, false)
  else
    -- u1 != u2 here: caml_compare_unordered = 1
    if ldEqb u1 u1 then (1, true)        -- u2 is nan
    else if ldEqb u2 u2 then (-1, true)  -- u1 is nan
    else (0, true)                       -- both nan ==> equal

/-- `ldouble_complex_cmp_val` (ldouble_stubs.c:447-453).  The two operands are
loaded with the scalar accessor `ldouble_custom_val`, which reads only the
first (real) component of the stored complex pair; the implicit conversion of
that `long double` to `long double complex` has imaginary part +0.0L, so
`creall(u1) = v1.re` and `cimagl(u1) = +0.0L`. -/
def ldouble_complex_cmp_val (v1 v2 : LD × LD) : Int × Bool :=
  let u1re := v1.1
  let u2re := v2.1
  let u1im := LD.zero false
  let u2im := LD.zero false
  let cmp_real := ldouble_cmp u1re u2re
  if cmp_real.1 = 0 then
    let cmp_imag := ldouble_cmp u1im u2im
    (cmp_imag.1, cmp_real.2 || cmp_imag.2)
  else cmp_real

/-- Convenient nonzero literals. -/
def ldOne : LD := LD.fin ⟨1, by decide⟩

def ldTwo : LD := LD.fin ⟨2, by decide⟩

def ldThree : LD := LD.fin ⟨3, by decide⟩

/-- `LDOUBLE_VALUE_BYTES` (ldouble_stubs.c:55-66), computed from the
platform's `LDBL_MANT_DIG` and `sizeof(long double)`. -/
def LDOUBLE_VALUE_BYTES (mantDig storageBytes : Nat) : Nat :=
  if mantDig = 53 then 8          -- 64 bit - same as double
  else if mantDig = 64 then 10    -- intel 80 bit extended
  else if mantDig = 106 then 16   -- __ibm128 (pair of doubles)
  else if mantDig = 113 then 16   -- ieee __float128
  else storageBytes

/-- `ldouble_mix_hash` (ldouble_stubs.c:100-131).  `mix32` is the host's
`caml_hash_mix_uint32`; `words v i` is the i-th 32-bit word `u.a[i]` of the
platform storage of pattern `v`; `mixDouble` is the host's
`caml_hash_mix_double` and `toDouble` the C cast `(double)`, both left
abstract because they are host/platform primitives.  Note the final branch
hashes the cast of the ORIGINAL `d`, not of the normalized `u.d`, exactly as
the source does. -/
def ldouble_mix_hash (vb : Nat) (bigEndian : Bool) (mix32 : Nat → Nat → Nat)
    (words : LD → Nat → Nat) (mixDouble : Nat → LD → Nat) (toDouble : LD → LD)
    (hash : Nat) (d : LD) : Nat :=
  let u := norm d
  if vb = 16 then
    -- ieee quad or __ibm128
    if bigEndian then
      mix32 (mix32 (mix32 (mix32 hash (words u 0)) (words u 1)) (words u 2)) (words u 3)
    else
      mix32 (mix32 (mix32 (mix32 hash (words u 1)) (words u 0)) (words u 3)) (words u 2)
  else if vb = 10 then
    -- intel extended
    mix32 (mix32 (mix32 hash (words u 0)) (words u 1)) (words u 2 &&& 0xFFFF)
  else
    -- either LDOUBLE_VALUE_BYTES == 8, or we dont know what else to do.
    mixDouble hash (toDouble d)

/-- `ldouble_hash` (ldouble_stubs.c:133-135). -/
def ldouble_hash (vb : Nat) (bigEndian : Bool) (mix32 : Nat → Nat → Nat)
    (words : LD → Nat → Nat) (mixDouble : Nat → LD → Nat) (toDouble : LD → LD)
    (v : LD) : Nat :=
  ldouble_mix_hash vb bigEndian mix32 words mixDouble toDouble 0 v

/-- `ldouble_complex_hash` (ldouble_stubs.c:455-458).  This function uses the
correct complex accessor, so both components are real. -/
def ldouble_complex_hash (vb : Nat) (bigEndian : Bool) (mix32 : Nat → Nat → Nat)
    (words : LD → Nat → Nat) (mixDouble : Nat → LD → Nat) (toDouble : LD → LD)
    (c : LD × LD) : Nat :=
  ldouble_mix_hash vb bigEndian mix32 words mixDouble toDouble
    (ldouble_mix_hash vb bigEndian mix32 words mixDouble toDouble 0 c.1) c.2

/-- One call to a host serialization primitive, with its payload.
`ldBytes vb v` stands for the block writes that emit the `vb` value bytes of
pattern `v` (`caml_serialize_block_8(p,2)` for 16 bytes;
`caml_serialize_block_8(p,1)` then `caml_serialize_block_2(p+8,1)` for 10);
`dbl sz d` stands for `caml_serialize_float_4/8` of the double `d`. -/
inductive Item where
  | int1 (n : Nat)
  | ldBytes (vb : Nat) (v : LD)
  | dbl (sz : Nat) (d : LD)
deriving DecidableEq

/-- Errors raised during deserialization.  `formatMismatch` is
`caml_deserialize_error("invalid long double size")`; `truncated` marks an
item stream that does not have the shape the codec reads (an artifact of the
item-level abstraction of the byte stream, unreachable on streams produced by
the matching serializer). -/
inductive DeserErr where
  | formatMismatch
  | truncated
deriving DecidableEq

/-- `ldouble_serialize_data` (ldouble_stubs.c:137-152); returns the emitted
items and the byte count the function returns.  `castD` is the C cast
`(double)` applied to `*q`; `dblSize` is `sizeof(double)`. -/
def ldouble_serialize_data (vb dblSize : Nat) (castD : LD → LD) (q : LD) :
    List Item × Nat :=
  if vb = 16 then ([Item.ldBytes 16 q], 16)
  else if vb = 10 then ([Item.ldBytes 10 q], 10)
  else ([Item.dbl dblSize (castD q)], dblSize)

/-- `ldouble_deserialize_data` (ldouble_stubs.c:163-179); reads back one value
from the stream.  `castLD` is the C cast `(long double)` applied to the
deserialized double. -/
def ldouble_deserialize_data (vb dblSize : Nat) (castLD : LD → LD)
    (s : List Item) : Option (LD × Nat × List Item) :=
  if vb = 16 then
    match s with
    | Item.ldBytes 16 v :: rest => some (v, 16, rest)
    | _ => none
  else if vb = 10 then
    match s with
    | Item.ldBytes 10 v :: rest => some (v, 10, rest)
    | _ => none
  else
    match s with
    | Item.dbl sz d :: rest =>
      if sz = dblSize then some (castLD d, dblSize, rest) else none
    | _ => none

/-- `ldouble_serialize` (ldouble_stubs.c:154-161): normalize, write the
`LDBL_MANT_DIG` tag byte, then the value bytes; result is the emitted items
together with `*wsize_32` and `*wsize_64` (both `1+size`). -/
def ldouble_serialize (mantDig storageBytes dblSize : Nat) (castD : LD → LD)
    (v : LD) : List Item × Nat × Nat :=
  let p := norm v
  let vb := LDOUBLE_VALUE_BYTES mantDig storageBytes
  let r := ldouble_serialize_data vb dblSize castD p
  (Item.int1 mantDig :: r.1, 1 + r.2, 1 + r.2)

/-- `ldouble_deserialize` (ldouble_stubs.c:181-187): read the tag byte, fail
with "invalid long double size" unless it equals the live `LDBL_MANT_DIG`,
otherwise read the value bytes; returns the value and `1+size`. -/
def ldouble_deserialize (mantDig storageBytes dblSize : Nat) (castLD : LD → LD)
    (s : List Item) : Except DeserErr (LD × Nat) :=
  match s with
  | Item.int1 n :: rest =>
    if n ≠ mantDig then Except.error DeserErr.formatMismatch
    else
      match ldouble_deserialize_data (LDOUBLE_VALUE_BYTES mantDig storageBytes)
          dblSize castLD rest with
      | some (v, size, _) => Except.ok (v, 1 + size)
      | none => Except.error DeserErr.truncated
  | _ => Except.error DeserErr.truncated

/-- `x * 0.0L` for the componentwise product `im * I` (I = 0+1i): exact IEEE
multiplication by positive zero.  The zero result takes the sign of `x`,
infinity times zero is the invalid operation producing the default quiet NaN,
and NaN propagates its payload. -/
def mulZero : LD → LD
  | .nan p => .nan p
  | .inf _ => .nan 0
  | .zero s => .zero s
  | .fin q => .zero (decide (q.1 < 0))

/-- IEEE addition of long doubles.  The embedded code only ever adds a zero or
a NaN on the right (the real part of `im * I`), where the sum is exact; the
finite+finite case is modelled by exact rational addition (such sums are
exact whenever reachable here).  Opposite-signed zeros sum to +0
(round-to-nearest); a NaN operand propagates its payload. -/
def ldAdd : LD → LD → LD
  | .nan p, _ => .nan p
  | _, .nan p => .nan p
  | .inf s, .inf t => if s = t then .inf s else .nan 0
  | .inf s, _ => .inf s
  | _, .inf t => .inf t
  | .zero s, .zero t => if s = t then .zero s else .zero false
  | .zero _, .fin q => .fin q
  | .fin q, .zero _ => .fin q
  | .fin q, .fin r =>
    if h : (q.1 + r.1 : ℚ) = 0 then .zero false else .fin ⟨q.1 + r.1, h⟩

/-- The C expression `re + im * I` (ldouble_stubs.c:479 and :509).  With
`I = 0+1i`, the mixed real-by-complex product is componentwise:
`im * I = (im*0.0L, im*1.0L)`, and `im * 1.0L` returns `im` bit-identically;
the mixed real-plus-complex sum adds to the real component only, so the
result is `(re + im*0.0L, im)`. -/
def complexExpr (re im : LD) : LD × LD :=
  (ldAdd re (mulZero im), im)

/-- `ldouble_complex_serialize` (ldouble_stubs.c:460-470).  The local `p` is
declared `long double *`, so `*p` reads only the stored real component;
`creall(*p)` is that component and `cimagl(*p)` is +0.0L.  Neither component
is normalized before its bytes are written. -/
def ldouble_complex_serialize (mantDig storageBytes dblSize : Nat)
    (castD : LD → LD) (v : LD × LD) : List Item × Nat × Nat :=
  let re := v.1
  let im := LD.zero false
  let vb := LDOUBLE_VALUE_BYTES mantDig storageBytes
  let r1 := ldouble_serialize_data vb dblSize castD re
  let r2 := ldouble_serialize_data vb dblSize castD im
  (Item.int1 mantDig :: (r1.1 ++ r2.1), 1 + (r1.2 + r2.2), 1 + (r1.2 + r2.2))

/-- `ldouble_complex_deserialize` (ldouble_stubs.c:472-481): tag check, then
two value reads, then store `re + im * I`. -/
def ldouble_complex_deserialize (mantDig storageBytes dblSize : Nat)
    (castLD : LD → LD) (s : List Item) : Except DeserErr ((LD × LD) × Nat) :=
  let vb := LDOUBLE_VALUE_BYTES mantDig storageBytes
  match s with
  | Item.int1 n :: rest =>
    if n ≠ mantDig then Except.error DeserErr.formatMismatch
    else
      match ldouble_deserialize_data vb dblSize castLD rest with
      | some (re, s1, rest1) =>
        match ldouble_deserialize_data vb dblSize castLD rest1 with
        | some (im, s2, _) => Except.ok (complexExpr re im, 1 + (s1 + s2))
        | none => Except.error DeserErr.truncated
      | none => Except.error DeserErr.truncated
  | _ => Except.error DeserErr.truncated

/-- `ctypes_ldouble_complex_make` (ldouble_stubs.c:505-510): unbox the two
scalars and store `re + (im * I)`. -/
def ctypes_ldouble_complex_make (r i : LD) : LD × LD := complexExpr r i

/-- `ctypes_ldouble_complex_real` (ldouble_stubs.c:513-516): `creall` of the
stored complex value. -/
def ctypes_ldouble_complex_real (v : LD × LD) : LD := v.1

/-- `ctypes_ldouble_complex_imag` (ldouble_stubs.c:519-522): `cimagl` of the
stored complex value. -/
def ctypes_ldouble_complex_imag (v : LD × LD) : LD := v.2

/-- `ctypes_ldouble_expm1l` (ldouble_stubs.c:270-276): on NetBSD the stub is
`FN1FAIL(expm1l)` and unconditionally raises `Failure`; elsewhere it is
`FN1(expm1l)`, delegating to the libm function (a parameter here). -/
def ctypes_ldouble_expm1l (netbsd : Bool) (expm1l : LD → LD) (a : LD) :
    Except String LD :=
  if netbsd then Except.error "ctypes: expm1l does not exist on current platform"
  else Except.ok (expm1l a)

/-- `ctypes_ldouble_log1pl` (ldouble_stubs.c:270-276). -/
def ctypes_ldouble_log1pl (netbsd : Bool) (log1pl : LD → LD) (a : LD) :
    Except String LD :=
  if netbsd then Except.error "ctypes: log1pl does not exist on current platform"
  else Except.ok (log1pl a)

/-- `ctypes_ldouble_remainderl` (ldouble_stubs.c:294-298). -/
def ctypes_ldouble_remainderl (netbsd : Bool) (remainderl : LD → LD → LD)
    (a b : LD) : Except String LD :=
  if netbsd then Except.error "ctypes: remainderl does not exist on current platform"
  else Except.ok (remainderl a b)

/-- `ctypes_ldouble_complex_cexpl` (ldouble_stubs.c:569-580): missing on
Android (API 24) and FreeBSD. -/
def ctypes_ldouble_complex_cexpl (androidOrFreebsd : Bool)
    (cexpl : LD × LD → LD × LD) (a : LD × LD) : Except String (LD × LD) :=
  if androidOrFreebsd then
    Except.error "ctypes: cexpl does not exist on current platform"
  else Except.ok (cexpl a)

/-- `ctypes_ldouble_complex_clogl` (ldouble_stubs.c:569-580). -/
def ctypes_ldouble_complex_clogl (androidOrFreebsd : Bool)
    (clogl : LD × LD → LD × LD) (a : LD × LD) : Except String (LD × LD) :=
  if androidOrFreebsd then
    Except.error "ctypes: clogl does not exist on current platform"
  else Except.ok (clogl a)

/-- `ctypes_ldouble_complex_cpowl` (ldouble_stubs.c:569-580). -/
def ctypes_ldouble_complex_cpowl (androidOrFreebsd : Bool)
    (cpowl : LD × LD → LD × LD → LD × LD) (a b : LD × LD) :
    Except String (LD × LD) :=
  if androidOrFreebsd then
    Except.error "ctypes: cpowl does not exist on current platform"
  else Except.ok (cpowl a b)

/-- The character the C string `str` holds at offset `k`: the terminating NUL
once `k` reaches the string's length. -/
def charAtC (s : List Char) (k : Nat) : Char :=
  match s.drop k with
  | [] => Char.ofNat 0
  | c :: _ => c

/-- `ctypes_ldouble_of_string` (ldouble_stubs.c:395-405).  `strtold` is the C
library parser, returning the parsed value and the offset of the end pointer;
`caml_invalid_argument("LDouble.of_string")` is raised on an empty string and
when the end pointer does not rest on a NUL. -/
def ctypes_ldouble_of_string (strtold : List Char → LD × Nat) (s : List Char) :
    Except String LD :=
  if s.length = 0 then Except.error "LDouble.of_string"
  else
    let r := strtold s
    if charAtC s r.2 ≠ Char.ofNat 0 then Except.error "LDouble.of_string"
    else Except.ok r.1

/-- Concrete stand-in for a platform's injective pattern-to-storage map, used
to instantiate the abstract `words` parameter in evaluation theorems. -/
def keyDemo : LD → Nat
  | .zero b => if b then 1 else 2
  | .inf b => if b then 3 else 4
  | .nan p => 5 + 2 * p
  | .fin q => 6 + 2 * Nat.pair (Int.natAbs (3 * q.1.num)) q.1.den

/-- Stand-in storage words: every 32-bit word of the storage of `v` is
`keyDemo v` (small enough to survive the 0xFFFF mask). -/
def wordsDemo : LD → Nat → Nat := fun v _ => keyDemo v

/-- Stand-in for `caml_hash_mix_uint32`: injective in the mixed word for a
fixed accumulator, like the host's MurmurHash3 round. -/
def mixDemo (h w : Nat) : Nat := 2 ^ 20 * h + w + 1

/-- Stand-in for `caml_hash_mix_double` (unused on the 10- and 16-byte
paths). -/
def mixDoubleDemo (h : Nat) (_ : LD) : Nat := h

/-- A pattern is finite when it is a zero or a nonzero finite value. -/
def LD.isFiniteB : LD → Bool
  | .zero _ => true
  | .fin _ => true
  | _ => false

/-- View of `Except` as a sum, for decidable equality of results. -/
def exceptToSum {ε α : Type} : Except ε α → ε ⊕ α
  | .error e => Sum.inl e
  | .ok a => Sum.inr a

instance instDecEqExcept {ε α : Type} [DecidableEq ε] [DecidableEq α] :
    DecidableEq (Except ε α) := fun a b =>
  decidable_of_iff (exceptToSum a = exceptToSum b) (by
    cases a <;> cases b <;> simp [exceptToSum])

/- ------------------------------------------------------------------ -/
/- Theorems                                                            -/
/- ------------------------------------------------------------------ -/

/-- The head character of a C string before its length is part of it. -/
theorem charAtC_mem (s : List Char) (k : Nat) (h : k < s.length) :
    charAtC s k ∈ s := by
  unfold charAtC
  cases hm : s.drop k with
  | nil =>
    exfalso
    have hlen := congrArg List.length hm
    simp [List.length_drop] at hlen
    omega
  | cons c t =>
    have hc : c ∈ s.drop k := by rw [hm]; exact List.mem_cons_self c t
    exact List.mem_of_mem_drop hc

/-- At offset `length` a C string holds its terminating NUL. -/
theorem charAtC_end (s : List Char) : charAtC s s.length = Char.ofNat 0 := by
  unfold charAtC
  rw [List.drop_length]

/-- Claim C1: the complex comparison is claimed to be lexicographic (real
part first, imaginary tie-break).  The code instead loads both operands with
the scalar accessor, so the imaginary parts never reach the comparison: at
z1 = (1,2), z2 = (1,3) it returns EQUAL (0) with no unordered signal, although
`ldouble_cmp` on the imaginary parts 2 and 3 returns LESS. -/
theorem complex_cmp_ignores_imaginary :
    ldouble_complex_cmp_val (ldOne, ldTwo) (ldOne, ldThree) = (0, false) ∧
    ldouble_cmp ldTwo ldThree = (-1, false) := by decide

/-- Claim C2: equal-by-compare values are claimed to hash identically.  For
the complex type this fails: (1,2) and (1,3) compare EQUAL (the comparison
never sees the imaginary parts) but the complex hash mixes both components,
so any word-injective host mix (here a concrete stand-in with the injectivity
the host primitive has) produces different hashes. -/
theorem complex_equal_compare_unequal_hash :
    ldouble_complex_cmp_val (ldOne, ldTwo) (ldOne, ldThree) = (0, false) ∧
    ldouble_complex_hash 10 false mixDemo wordsDemo mixDoubleDemo id (ldOne, ldTwo) ≠
      ldouble_complex_hash 10 false mixDemo wordsDemo mixDoubleDemo id (ldOne, ldThree) := by
  decide

/-- Claim C3 counterexample: the claim says `compare(NaN, 1.0) == GREATER`,
but `ldouble_cmp(NaN, 1.0)` returns -1 (LESS). -/
theorem cmp_nan_one_is_less :
    ldouble_cmp (LD.nan 0) ldOne = (-1, true) ∧ ((-1 : Int) ≠ 1) := by decide

/-- Claim C3 (amended): `compare(NaN, NaN)` returns EQUAL and raises the
unordered signal; `compare(NaN, 1.0)` returns LESS; `compare(1.0, NaN)`
returns GREATER (NaN sorts below non-NaN), for every NaN payload. -/
theorem cmp_nan_rules : ∀ p q : Nat,
    ldouble_cmp (LD.nan p) (LD.nan q) = (0, true) ∧
    ldouble_cmp (LD.nan p) ldOne = (-1, true) ∧
    ldouble_cmp ldOne (LD.nan q) = (1, true) := by
  intro p q
  exact ⟨rfl, rfl, rfl⟩

/-- Claim C4: on the running platform, deserializing the bytes written by the
serializer yields exactly `norm x` (and consumes the declared `1+size`
bytes).  The premise covers only the branch that narrows to a machine double
(value widths other than 16 and 10): there the platform's
`(long double)(double)` cast must give back the normalized value, which holds
on every `LDBL_MANT_DIG == 53` platform because the two formats coincide. -/
theorem serialize_roundtrip (mantDig storageBytes dblSize : Nat)
    (castD castLD : LD → LD) (x : LD)
    (hnarrow : LDOUBLE_VALUE_BYTES mantDig storageBytes ≠ 16 →
      LDOUBLE_VALUE_BYTES mantDig storageBytes ≠ 10 →
      castLD (castD (norm x)) = norm x) :
    ldouble_deserialize mantDig storageBytes dblSize castLD
      (ldouble_serialize mantDig storageBytes dblSize castD x).1 =
    Except.ok (norm x, (ldouble_serialize mantDig storageBytes dblSize castD x).2.1) := by
  by_cases h16 : LDOUBLE_VALUE_BYTES mantDig storageBytes = 16
  · simp [ldouble_serialize, ldouble_serialize_data, ldouble_deserialize,
      ldouble_deserialize_data, h16]
  · by_cases h10 : LDOUBLE_VALUE_BYTES mantDig storageBytes = 10
    · simp [ldouble_serialize, ldouble_serialize_data, ldouble_deserialize,
        ldouble_deserialize_data, h16, h10]
    · simp [ldouble_serialize, ldouble_serialize_data, ldouble_deserialize,
        ldouble_deserialize_data, h16, h10, hnarrow h16 h10]

/-- Witness for `serialize_roundtrip` on the intel-extended platform
(`LDBL_MANT_DIG = 64`, 16-byte storage, 8-byte double) at x = -0.0L. -/
theorem serialize_roundtrip_witness :
    (LDOUBLE_VALUE_BYTES 64 16 ≠ 16 → LDOUBLE_VALUE_BYTES 64 16 ≠ 10 →
      id (id (norm (LD.zero true))) = norm (LD.zero true)) ∧
    ldouble_deserialize 64 16 8 id (ldouble_serialize 64 16 8 id (LD.zero true)).1 =
      Except.ok (norm (LD.zero true), (ldouble_serialize 64 16 8 id (LD.zero true)).2.1) :=
  ⟨by decide, serialize_roundtrip 64 16 8 id id (LD.zero true) (by decide)⟩

/-- Claim C5: the complex serializer is claimed to write the tag byte, then
the normalized real-part bytes, then the normalized imaginary-part bytes.
At z = (-0.0L, 3.0L) on the intel-extended platform the code instead emits
the raw (unnormalized) real component and +0.0L in place of the imaginary
component (`cimagl` is applied to a value already truncated to the real
part, and no `norm` is applied). -/
theorem complex_serialize_drops_imaginary :
    (ldouble_complex_serialize 64 16 8 id (LD.zero true, ldThree)).1 =
      [Item.int1 64, Item.ldBytes 10 (LD.zero true), Item.ldBytes 10 (LD.zero false)] ∧
    [Item.int1 64, Item.ldBytes 10 (LD.zero true), Item.ldBytes 10 (LD.zero false)] ≠
      [Item.int1 64, Item.ldBytes 10 (norm (LD.zero true)), Item.ldBytes 10 (norm ldThree)] := by
  decide

/-- Claim C6: a leading tag byte different from the live platform's
`LDBL_MANT_DIG` makes both the scalar and the complex deserializer fail with
the format-mismatch error, for every value payload (`rest` is arbitrary and
never inspected), producing no value. -/
theorem deserialize_tag_mismatch (mantDig storageBytes dblSize : Nat)
    (castLD : LD → LD) (n : Nat) (rest : List Item) (h : n ≠ mantDig) :
    ldouble_deserialize mantDig storageBytes dblSize castLD (Item.int1 n :: rest) =
      Except.error DeserErr.formatMismatch ∧
    ldouble_complex_deserialize mantDig storageBytes dblSize castLD (Item.int1 n :: rest) =
      Except.error DeserErr.formatMismatch := by
  constructor <;> simp [ldouble_deserialize, ldouble_complex_deserialize, h]

/-- Witness for `deserialize_tag_mismatch`: a value serialized on a
`LDBL_MANT_DIG = 53` platform is rejected on a `LDBL_MANT_DIG = 64` one. -/
theorem deserialize_tag_mismatch_witness :
    ((53 : Nat) ≠ 64) ∧
    (ldouble_deserialize 64 16 8 id [Item.int1 53] =
        Except.error DeserErr.formatMismatch ∧
      ldouble_complex_deserialize 64 16 8 id [Item.int1 53] =
        Except.error DeserErr.formatMismatch) :=
  ⟨by decide, deserialize_tag_mismatch 64 16 8 id 53 [] (by decide)⟩

/-- Claim C7: `norm` is idempotent — it collapses zeros to +0 and NaNs to the
canonical NaN, passes everything else through, and a second application
changes nothing. -/
theorem norm_idempotent : ∀ x : LD, norm (norm x) = norm x := by
  intro x
  cases x <;> rfl

/-- Claim C8: on a platform whose libm lacks the function (NetBSD for
expm1l/log1pl/remainderl, Android/FreeBSD for cexpl/clogl/cpowl) the stub
raises a failure naming the operation, for every input (zero, infinity, any
value), and never returns a value. -/
theorem unsupported_platform_ops_fail :
    ∀ (f g : LD → LD) (h2 : LD → LD → LD) (ce cl : LD × LD → LD × LD)
      (cp : LD × LD → LD × LD → LD × LD) (a b : LD) (z w : LD × LD),
    ctypes_ldouble_expm1l true f a =
      Except.error "ctypes: expm1l does not exist on current platform" ∧
    ctypes_ldouble_log1pl true g a =
      Except.error "ctypes: log1pl does not exist on current platform" ∧
    ctypes_ldouble_remainderl true h2 a b =
      Except.error "ctypes: remainderl does not exist on current platform" ∧
    ctypes_ldouble_complex_cexpl true ce z =
      Except.error "ctypes: cexpl does not exist on current platform" ∧
    ctypes_ldouble_complex_clogl true cl z =
      Except.error "ctypes: clogl does not exist on current platform" ∧
    ctypes_ldouble_complex_cpowl true cp z w =
      Except.error "ctypes: cpowl does not exist on current platform" := by
  intro f g h2 ce cl cp a b z w
  exact ⟨rfl, rfl, rfl, rfl, rfl, rfl⟩

/-- Claim C9: `of_string` raises Invalid_argument exactly on the empty string
and when `strtold` leaves unconsumed characters, and otherwise returns the
parsed value.  The premises are the C contract of `strtold` (the end pointer
stays within the string) and the absence of embedded NUL bytes in the text. -/
theorem of_string_spec (strtold : List Char → LD × Nat) (s : List Char)
    (hend : (strtold s).2 ≤ s.length)
    (hnul : ∀ c ∈ s, c ≠ Char.ofNat 0) :
    (ctypes_ldouble_of_string strtold s = Except.error "LDouble.of_string" ↔
      s = [] ∨ (strtold s).2 < s.length) ∧
    ((strtold s).2 = s.length → s ≠ [] →
      ctypes_ldouble_of_string strtold s = Except.ok (strtold s).1) := by
  unfold ctypes_ldouble_of_string
  by_cases hs : s = []
  · subst hs
    simp
  · have hlen : s.length ≠ 0 := fun h0 => hs (List.length_eq_zero.mp h0)
    rcases Nat.lt_or_ge (strtold s).2 s.length with hlt | hge
    · have hmem := charAtC_mem s (strtold s).2 hlt
      have hne := hnul _ hmem
      have hne2 : (strtold s).2 ≠ s.length := Nat.ne_of_lt hlt
      simp [hlen, hne, hs, hlt, hne2]
    · have heq : (strtold s).2 = s.length := le_antisymm hend hge
      have hchar : charAtC s (strtold s).2 = Char.ofNat 0 := by
        rw [heq]
        exact charAtC_end s
      simp [hlen, hchar, hs, heq, charAtC_end]

/-- Adding any zero to +0.0L gives +0.0L. -/
theorem ldAdd_zero_false (t : Bool) :
    ldAdd (LD.zero false) (LD.zero t) = LD.zero false := by
  cases t <;> rfl

/-- Claim C10 counterexample: with r = -0.0L and i = 1.0L (finite), the
stored real part is `(-0.0L) + (1.0L * 0.0L) = (-0.0L) + (+0.0L) = +0.0L`,
so `real(make(r,i))` is +0.0L, not bit-identical to r. -/
theorem make_real_negzero_flipped :
    ctypes_ldouble_complex_real (ctypes_ldouble_complex_make (LD.zero true) ldOne) =
      LD.zero false ∧ LD.zero false ≠ LD.zero true := by decide

/-- Claim C10 (amended): for finite i, `imag(make(r,i))` is bit-identical to
i always, and `real(make(r,i))` is bit-identical to r unless r is negative
zero while `i * 0.0L` is positive zero (i with a clear sign bit), in which
case the real part comes back as +0.0L. -/
theorem make_proj_roundtrip (r i : LD) (hi : LD.isFiniteB i = true)
    (hr : r = LD.zero true → mulZero i = LD.zero true) :
    ctypes_ldouble_complex_real (ctypes_ldouble_complex_make r i) = r ∧
    ctypes_ldouble_complex_imag (ctypes_ldouble_complex_make r i) = i := by
  refine ⟨?_, rfl⟩
  show ldAdd r (mulZero i) = r
  cases i with
  | nan p => simp [LD.isFiniteB] at hi
  | inf b => simp [LD.isFiniteB] at hi
  | zero s =>
    cases r with
    | nan p => rfl
    | inf b => rfl
    | fin q => rfl
    | zero t =>
      cases t with
      | false => exact ldAdd_zero_false s
      | true =>
        have h2 : mulZero (LD.zero s) = LD.zero true := hr rfl
        rw [show mulZero (LD.zero s) = LD.zero s from rfl] at h2 ⊢
        rw [h2]
        rfl
  | fin q =>
    cases r with
    | nan p => rfl
    | inf b => rfl
    | fin p => rfl
    | zero t =>
      cases t with
      | false => exact ldAdd_zero_false (decide (q.1 < 0))
      | true =>
        have h2 : mulZero (LD.fin q) = LD.zero true := hr rfl
        rw [show mulZero (LD.fin q) = LD.zero (decide (q.1 < 0)) from rfl] at h2 ⊢
        rw [h2]
        rfl

/-- Witness for `make_proj_roundtrip` at r = 2.0L, i = 3.0L. -/
theorem make_proj_roundtrip_witness :
    (LD.isFiniteB ldThree = true) ∧
    (ldTwo = LD.zero true → mulZero ldThree = LD.zero true) ∧
    (ctypes_ldouble_complex_real (ctypes_ldouble_complex_make ldTwo ldThree) = ldTwo ∧
     ctypes_ldouble_complex_imag (ctypes_ldouble_complex_make ldTwo ldThree) = ldThree) :=
  ⟨by decide, by decide, make_proj_roundtrip ldTwo ldThree (by decide) (by decide)⟩

/-- Witness for `of_string_spec` on the one-character string "1" with a
`strtold` that consumes the whole string. -/
theorem of_string_spec_witness :
    (((fun s : List Char => (ldOne, s.length)) [Char.ofNat 49]).2 ≤
      [Char.ofNat 49].length) ∧
    (∀ c ∈ [Char.ofNat 49], c ≠ Char.ofNat 0) ∧
    ((ctypes_ldouble_of_string (fun s : List Char => (ldOne, s.length)) [Char.ofNat 49] =
        Except.error "LDouble.of_string" ↔
      [Char.ofNat 49] = ([] : List Char) ∨
        ((fun s : List Char => (ldOne, s.length)) [Char.ofNat 49]).2 <
          [Char.ofNat 49].length) ∧
     (((fun s : List Char => (ldOne, s.length)) [Char.ofNat 49]).2 =
          [Char.ofNat 49].length →
        [Char.ofNat 49] ≠ [] →
        ctypes_ldouble_of_string (fun s : List Char => (ldOne, s.length)) [Char.ofNat 49] =
          Except.ok ((fun s : List Char => (ldOne, s.length)) [Char.ofNat 49]).1)) :=
  ⟨by decide, by decide,
    of_string_spec (fun s : List Char => (ldOne, s.length)) [Char.ofNat 49]
      (by decide) (by decide)⟩
